import Mathlib

/-!
Shallow embedding of `train.py` (VSGL training loops) over exact rationals.

Tensors of coordinates and adjacency matrices are modelled as nested lists of
rationals; a batch is a list of per-graph matrices.  External collaborators
(generator, discriminator, classifier, renderer) are opaque function
parameters, as the spec designates them out of scope.  Randomness
(`torch.randn`, `torch.rand`) is an external input, modelled as an explicit
stream of draw values.  Fallible operations (Python `ZeroDivisionError`)
return `Option`.
-/

/-- A per-graph matrix: rows of rational entries (node coordinates or an
adjacency matrix). -/
abbrev Mat : Type := List (List ℚ)

/-- torch.mean of a 1-D tensor. -/
def mean (l : List ℚ) : ℚ := l.sum / (l.length : ℚ)

/-- Squared L2 norm of a flattened row: the square of `torch.norm(row)`.
Over nonnegative arguments, `norm > 0` iff `rowNormSq > 0`, so comparisons
against zero are stated on the square to stay inside ℚ. -/
def rowNormSq (r : List ℚ) : ℚ := (r.map fun x => x * x).sum

/-- Pointwise combination of three lists, truncating to the shortest
(the shape-match of equally sized tensors). -/
def zipWith3 (f : α → β → γ → δ) : List α → List β → List γ → List δ
  | a :: as, b :: bs, c :: cs => f a b c :: zipWith3 f as bs cs
  | _, _, _ => []

/- ------------------------------------------------------------------ -/
/- 4.1  calculate_f1 (train.py lines 10-30)                            -/
/- ------------------------------------------------------------------ -/

/-- The `1e-8` guard used in `calculate_f1`. -/
def eps : ℚ := 1 / 100000000

/-- calculate_f1(preds, labels) from train.py lines 21-30:
tp = (preds*labels).sum(), tn = ((1-preds)*(1-labels)).sum(),
fp = (preds*(1-labels)).sum(), fn = ((1-preds)*labels).sum(),
precision = tp/(tp+fp+1e-8), recall = tp/(tp+fn+1e-8),
f1 = 2*(precision*recall)/(precision+recall+1e-8);
returns (precision, recall, f1).  This is the exact-rational idealization of
the source's float32 arithmetic; it is adequate where only the zero/nonzero
structure of the result matters (the aggregation plumbing of
evaluate_model), while `calculate_f1_f32` below models the float32
rounding, which differs exactly where the 1e-8 guard is absorbed. -/
def calculate_f1 (preds labels : List ℚ) : ℚ × ℚ × ℚ :=
  let tp := (List.zipWith (fun p l => p * l) preds labels).sum
  let fp := (List.zipWith (fun p l => p * (1 - l)) preds labels).sum
  let fn := (List.zipWith (fun p l => (1 - p) * l) preds labels).sum
  let precision_val := tp / (tp + fp + eps)
  let recall_val := tp / (tp + fn + eps)
  let f1 := 2 * (precision_val * recall_val) / (precision_val + recall_val + eps)
  (precision_val, recall_val, f1)

/-- A prediction/label tensor is binary when every entry is 0 or 1. -/
def IsBinary (l : List ℚ) : Prop := ∀ x ∈ l, x = 0 ∨ x = 1

/- ------------------------------------------------------------------ -/
/- float32 arithmetic model for calculate_f1's eps guard               -/
/- ------------------------------------------------------------------ -/

/-- Round-to-nearest single-precision (float32) model on exact rationals:
a positive value is scaled so that its significand lies in [2^23, 2^24),
the significand is rounded to the nearest integer, and the result is scaled
back.  Exact ties round half-up here where IEEE rounds half-even — no
computation in this development evaluates the function at a tie — and
neither subnormal flushing nor overflow is modelled, since every value that
arises lies far inside the normal range.  Nonpositive inputs (only 0
arises) are returned unchanged as 0. -/
def round32 (x : ℚ) : ℚ :=
  if x ≤ 0 then 0
  else
    let e : ℤ := Int.log 2 x - 23
    ((round (x / 2 ^ e) : ℤ) : ℚ) * 2 ^ e

/-- float32 addition: add exactly, then round to single precision. -/
def f32add (x y : ℚ) : ℚ := round32 (x + y)

/-- float32 multiplication. -/
def f32mul (x y : ℚ) : ℚ := round32 (x * y)

/-- float32 division. -/
def f32div (x y : ℚ) : ℚ := round32 (x / y)

/-- The float32 value of the literal 1e-8 used as the division guard on
train.py lines 26-28: the nearest single-precision number to 1e-8. -/
def eps32 : ℚ := round32 (1 / 100000000)

/-- calculate_f1 (train.py lines 21-30) under the source's float32
arithmetic: the confusion sums are kept exact — every partial sum of 0/1
products below 2^24 is computed exactly in float32, which the theorems
assume through a batch-size bound — and every subsequent addition,
multiplication and division rounds to single precision.  Refines
`calculate_f1`, whose exact-rational arithmetic diverges from the source
precisely where the 1e-8 guard is absorbed by rounding (1.0 + 1e-8 and
2.0 + 1e-8 both round back in float32). -/
def calculate_f1_f32 (preds labels : List ℚ) : ℚ × ℚ × ℚ :=
  let tp := (List.zipWith (fun p l => p * l) preds labels).sum
  let fp := (List.zipWith (fun p l => p * (1 - l)) preds labels).sum
  let fn := (List.zipWith (fun p l => (1 - p) * l) preds labels).sum
  let precision_val := f32div tp (f32add (f32add tp fp) eps32)
  let recall_val := f32div tp (f32add (f32add tp fn) eps32)
  let f1 := f32div (f32mul 2 (f32mul precision_val recall_val))
    (f32add (f32add precision_val recall_val) eps32)
  (precision_val, recall_val, f1)

/- ------------------------------------------------------------------ -/
/- 4.2  compute_gradient_penalty (train.py lines 32-83)                -/
/- ------------------------------------------------------------------ -/

/-- interpolated_samples (line 58): alpha_samples is one uniform draw per
graph broadcast over the coordinate tensor, so per graph i the result is
alpha_i * real_i + (1 - alpha_i) * fake_i entrywise. -/
def interpolated_samples (alpha_samples : List ℚ) (real_samples fake_samples : List Mat) :
    List Mat :=
  zipWith3
    (fun a r f => List.zipWith (List.zipWith fun x y => a * x + (1 - a) * y) r f)
    alpha_samples real_samples fake_samples

/-- interpolated_adj (line 59): alpha_adj is a full (num_nodes × num_nodes)
uniform draw per graph, so the interpolation coefficient varies per entry:
entrywise a * r + (1 - a) * f. -/
def interpolated_adj (alpha_adj real_adj fake_adj : List Mat) : List Mat :=
  zipWith3
    (fun aM rM fM =>
      zipWith3 (fun aRow rRow fRow =>
        zipWith3 (fun a r f => a * r + (1 - a) * f) aRow rRow fRow) aM rM fM)
    alpha_adj real_adj fake_adj

/-- The critic, an opaque differentiable collaborator (spec section 6).
`score` is the per-graph critic output; `gradSamples` and `gradAdj` are the
per-sample flattened gradients of the summed output (grad_outputs all ones)
with respect to the two inputs, i.e. the two components of the tuple
returned by `torch.autograd.grad`. -/
structure Critic where
  score : List Mat → List Mat → List ℚ
  gradSamples : List Mat → List Mat → Mat
  gradAdj : List Mat → List Mat → Mat

/-- torch.autograd.grad(outputs=d_interpolates,
inputs=[interpolated_samples, interpolated_adj], grad_outputs=ones, ...)
(lines 65-73): returns one gradient tensor per entry of `inputs`, here as a
two-element list of per-sample flattened gradient matrices. -/
def autograd_grad (D : Critic) (interp_samples interp_adj : List Mat) : List Mat :=
  [D.gradSamples interp_samples interp_adj, D.gradAdj interp_samples interp_adj]

/-- The gradient tensor actually used by compute_gradient_penalty: the call
on lines 65-73 ends in `[0]`, selecting the first element of the returned
tuple. -/
def gp_used_gradients (D : Critic) (alpha_samples : List ℚ) (alpha_adj : List Mat)
    (real_samples fake_samples real_adj fake_adj : List Mat) : Mat :=
  (autograd_grad D (interpolated_samples alpha_samples real_samples fake_samples)
    (interpolated_adj alpha_adj real_adj fake_adj)).headI

/-- Per-sample squared gradient norm entering the penalty (lines 77-78:
`gradients.view(batch_size, -1)` then `.norm(2, dim=1)`); squared to stay in
ℚ — the squared norms determine the norms on nonnegative reals. -/
def gp_norm_sq (D : Critic) (alpha_samples : List ℚ) (alpha_adj : List Mat)
    (real_samples fake_samples real_adj fake_adj : List Mat) : List ℚ :=
  (gp_used_gradients D alpha_samples alpha_adj
    real_samples fake_samples real_adj fake_adj).map rowNormSq

/-- Modelled from the spec (4.2), not from the source: the per-sample squared
norm of the critic's COMBINED gradient with respect to both interpolated
inputs, flattened per sample — what the claim says enters the penalty. -/
def gp_combined_norm_sq (D : Critic) (alpha_samples : List ℚ) (alpha_adj : List Mat)
    (real_samples fake_samples real_adj fake_adj : List Mat) : List ℚ :=
  let interp_s := interpolated_samples alpha_samples real_samples fake_samples
  let interp_a := interpolated_adj alpha_adj real_adj fake_adj
  (List.zipWith (fun gs ga => gs ++ ga)
    (D.gradSamples interp_s interp_a) (D.gradAdj interp_s interp_a)).map rowNormSq

/-- Call site train.py line 168: compute_gradient_penalty(discriminator,
node_coords, generated_coords, adj_matrices, adj_matrices, ...) — the
real_adj and fake_adj arguments are the same tensor. -/
def train_gan_gp_adj_args (adj_matrices : List Mat) : List Mat × List Mat :=
  (adj_matrices, adj_matrices)

/-- Call site train.py line 413: compute_gradient_penalty(discriminator,
graph_layouts, generated_layouts, adj_matrices, adj_matrices, ...) — again
the same tensor twice. -/
def combined_gp_adj_args (adj_matrices : List Mat) : List Mat × List Mat :=
  (adj_matrices, adj_matrices)

/-- Nested shape of a batch of matrices (list of per-row lengths per graph). -/
def shape3 (x : List Mat) : List (List ℕ) := x.map fun m => m.map List.length

/- ------------------------------------------------------------------ -/
/- num_nodes derivation (train.py lines 148-151, 384-387, 691-694)     -/
/- ------------------------------------------------------------------ -/

/-- Per-graph node count: `torch.norm(coords, dim=2) > 0` produces the mask
of rows with positive norm, `.sum(dim=1)` counts the true entries. -/
def graph_num_nodes (g : Mat) : ℕ :=
  (g.map fun r => decide (0 < rowNormSq r)).count true

/-- train.py lines 148-151 (pretraining loop `train_gan`). -/
def train_gan_num_nodes (node_coords : List Mat) : List ℕ :=
  node_coords.map graph_num_nodes

/-- train.py lines 384-387 (combined loop `train_combined_cgan`). -/
def combined_num_nodes (graph_layouts : List Mat) : List ℕ :=
  graph_layouts.map graph_num_nodes

/-- train.py lines 691-694 (`evaluate_model`). -/
def eval_num_nodes (graph_layouts : List Mat) : List ℕ :=
  graph_layouts.map graph_num_nodes

/- ------------------------------------------------------------------ -/
/- 4.4  train_gan early stopping and CSV rows (lines 88-297)           -/
/- ------------------------------------------------------------------ -/

/-- Per-network early-stopping state of `train_gan`:
`best` models `best_g_loss` / `best_d_loss` (`none` = float('inf')),
`count` the `*_epochs_without_improvement` counter,
`stop` the `stop_training_*` flag. -/
structure ESState where
  best : Option ℚ
  count : ℕ
  stop : Bool
  deriving DecidableEq, Repr

/-- Initial early-stopping state (lines 100-108): best loss infinity,
counter zero, flag unset. -/
def es_init : ESState := { best := none, count := 0, stop := false }

/-- The test `avg_loss < best_loss` with best initially float('inf'). -/
def improves (l : ℚ) : Option ℚ → Bool
  | none => true
  | some b => decide (l < b)

/-- End-of-epoch early-stopping update for one network (lines 255-266 for
the generator, 268-279 for the discriminator): on strict improvement the
minimum is updated and the counter reset (and the network checkpointed);
otherwise the counter increments and, upon reaching `patience`, the
permanent stop flag is set. -/
def es_step (patience : ℕ) (s : ESState) (l : ℚ) : ESState :=
  if improves l s.best then
    { best := some l, count := 0, stop := s.stop }
  else
    let c := s.count + 1
    { best := s.best, count := c, stop := s.stop || decide (patience ≤ c) }

/-- Whole-loop state of `train_gan`: the two per-network early-stopping
states, the optimizer step counts (a step per batch unless the network is
frozen, lines 164-177 and 196-213), the number of CSV data rows appended
(lines 294-297), and the number of epoch bodies executed. -/
structure GanState where
  g : ESState
  d : ESState
  gSteps : ℕ
  dSteps : ℕ
  rows : ℕ
  executed : ℕ
  deriving DecidableEq, Repr

/-- State before the epoch loop of `train_gan`: the CSV holds only the
header row (lines 119-121), no data rows. -/
def gan_init : GanState :=
  { g := es_init, d := es_init, gSteps := 0, dSteps := 0, rows := 0, executed := 0 }

/-- One epoch body of `train_gan` given the epoch-average generator and
discriminator losses: each of the `nbatches` batches steps an optimizer
only if its network is not frozen, one CSV row is appended, and both
early-stopping states advance. -/
def gan_epoch (patience nbatches : ℕ) (st : GanState) (gl dl : ℚ) : GanState :=
  { g := es_step patience st.g gl
    d := es_step patience st.d dl
    gSteps := st.gSteps + (if st.g.stop then 0 else nbatches)
    dSteps := st.dSteps + (if st.d.stop then 0 else nbatches)
    rows := st.rows + 1
    executed := st.executed + 1 }

/-- The epoch loop of `train_gan` (`for epoch in range(epochs)`, line 123),
with the early-stopping break at the top of the body (lines 124-126):
once both flags are set, no further epoch body runs.  `losses e` gives the
epoch-average (generator, discriminator) losses of epoch `e`. -/
def gan_loop (patience nbatches : ℕ) (losses : ℕ → ℚ × ℚ) :
    ℕ → ℕ → GanState → GanState
  | 0, _, st => st
  | n + 1, e, st =>
    if st.g.stop && st.d.stop then st
    else gan_loop patience nbatches losses n (e + 1)
      (gan_epoch patience nbatches st (losses e).1 (losses e).2)

/- ------------------------------------------------------------------ -/
/- 4.5  train_combined_cgan epoch bookkeeping (lines 301-618)          -/
/- ------------------------------------------------------------------ -/

/-- Epoch-level state of the combined loop: `bestAcc` is `best_accuracy`
(initially 0), `noImp` the shared `epochs_without_improvement` counter,
`ckpt` the contents of the last joint checkpoint written to best_model.pth
(epoch index and validation accuracy stored in the saved dict), `saves`
the number of checkpoint writes, `rows` the CSV data rows (baseline
included), `executed` the epoch bodies run, `stopped` whether the early
stopping break fired. -/
structure CombState where
  bestAcc : ℚ
  noImp : ℕ
  ckpt : Option (ℕ × ℚ)
  saves : ℕ
  rows : ℕ
  executed : ℕ
  stopped : Bool
  deriving DecidableEq, Repr

/-- State before the combined epoch loop: best accuracy 0, counter 0, no
checkpoint, and exactly one CSV data row — the epoch-0 baseline written on
lines 352-355 before training. -/
def comb_init : CombState :=
  { bestAcc := 0, noImp := 0, ckpt := none, saves := 0, rows := 1,
    executed := 0, stopped := false }

/-- End-of-epoch bookkeeping of the combined loop for epoch `e` with
validation accuracy `acc`: append the CSV row (lines 586-588); if
`val_accuracy > best_accuracy` write the joint checkpoint, reset the shared
counter and update the best (lines 591-607), else increment the counter
(lines 608-610); finally fire the early stop once the counter reaches
`patience` (lines 613-615). -/
def comb_epoch (patience : ℕ) (e : ℕ) (acc : ℚ) (s : CombState) : CombState :=
  let s1 : CombState := { s with rows := s.rows + 1, executed := s.executed + 1 }
  let s2 : CombState :=
    if s1.bestAcc < acc then
      { s1 with bestAcc := acc, noImp := 0, ckpt := some (e, acc),
                saves := s1.saves + 1 }
    else
      { s1 with noImp := s1.noImp + 1 }
  if patience ≤ s2.noImp then { s2 with stopped := true } else s2

/-- The combined epoch loop (`for epoch in range(epochs)`, line 361) with
the early-stopping break (lines 613-615): the epoch that trips the break
still completes (its CSV row is already appended); no later epoch runs.
`acc e` is the validation accuracy computed for epoch `e`. -/
def comb_loop (patience : ℕ) (acc : ℕ → ℚ) : ℕ → ℕ → CombState → CombState
  | 0, _, s => s
  | n + 1, e, s =>
    if s.stopped then s
    else comb_loop patience acc n (e + 1) (comb_epoch patience e (acc e) s)

/- ------------------------------------------------------------------ -/
/- 4.5  combined per-batch generator+classifier step (lines 396-463)   -/
/- ------------------------------------------------------------------ -/

/-- The per-batch collaborators of the combined loop, with the batch data
(graph_layouts, adj_matrices, labels, num_nodes) fixed:
`gen z` is generator(z, graph_layouts, adj_matrices, num_nodes) for one
noise draw `z`; `dscore` is discriminator(layouts, adj_matrices) per graph;
`renderImages` maps a batch of layouts through visualize_graph_layout
(per-graph truncation to num_nodes and adjacency conditioning included);
`clfLoss` is criterion(classifier(images), labels). -/
structure CombBatchFns where
  gen : ℚ → List Mat
  dscore : List Mat → List ℚ
  renderImages : List Mat → List (List ℚ)
  clfLoss : List (List ℚ) → ℚ

/-- Critic-step generations (lines 399-405): for each of the
`num_z_samples` draws, a fresh z and a fresh generation; draw `k` uses
noise value `zs k`. -/
def critic_step_layouts (F : CombBatchFns) (zs : ℕ → ℚ) (num_z_samples : ℕ) :
    List (List Mat) :=
  (List.range num_z_samples).map fun k => F.gen (zs k)

/-- The value the Python variable `generated_layouts` holds after the
critic-step loop: the generation of the LAST critic-step draw. -/
def critic_step_last (F : CombBatchFns) (zs : ℕ → ℚ) (num_z_samples : ℕ) :
    List Mat :=
  (critic_step_layouts F zs num_z_samples).getLastD []

/-- Generator-step generations (lines 431-433): `num_z_samples` further
fresh draws (noise indices continue after the critic step's), each
producing `gen_layouts`. -/
def gen_step_fresh_layouts (F : CombBatchFns) (zs : ℕ → ℚ) (num_z_samples : ℕ) :
    List (List Mat) :=
  (List.range num_z_samples).map fun k => F.gen (zs (num_z_samples + k))

/-- The batch of layouts actually rendered for classification in iteration
`k` of the generator step: line 442 iterates `for i, layout in
enumerate(generated_layouts)` — the critic-step variable — in every
iteration, not the freshly generated `gen_layouts`. -/
def gen_step_rendered (F : CombBatchFns) (zs : ℕ → ℚ) (num_z_samples : ℕ) :
    List (List Mat) :=
  (List.range num_z_samples).map fun _ => critic_step_last F zs num_z_samples

/-- Adversarial losses accumulated in the generator step (lines 436-437):
adv_loss = -mean(discriminator(gen_layouts, adj)) on the fresh generation. -/
def gen_step_adv_losses (F : CombBatchFns) (zs : ℕ → ℚ) (num_z_samples : ℕ) :
    List ℚ :=
  (gen_step_fresh_layouts F zs num_z_samples).map fun gl => -(mean (F.dscore gl))

/-- Classifier losses accumulated in the generator step (lines 441-455):
each iteration renders the layouts held by `generated_layouts` and takes
the cross-entropy of the classifier on those images. -/
def gen_step_clf_losses (F : CombBatchFns) (zs : ℕ → ℚ) (num_z_samples : ℕ) :
    List ℚ :=
  (gen_step_rendered F zs num_z_samples).map fun gl => F.clfLoss (F.renderImages gl)

/-- mean_clf_loss (line 460): the average of the accumulated classifier
losses, later reused for the classifier optimizer step (line 507). -/
def mean_clf_loss (F : CombBatchFns) (zs : ℕ → ℚ) (num_z_samples : ℕ) : ℚ :=
  mean (gen_step_clf_losses F zs num_z_samples)

/- ------------------------------------------------------------------ -/
/- 4.6  evaluate_model (lines 677-746)                                 -/
/- ------------------------------------------------------------------ -/

/-- One loader batch: per-graph coordinate matrices, adjacency matrices and
integer class labels (2 classes). -/
structure EvalBatch where
  layouts : List Mat
  adjs : List Mat
  labels : List ℕ
  deriving DecidableEq

/-- The collaborators of `evaluate_model`: `gen` is
generator(z, graph_layouts, adj_matrices, num_nodes); `render` is
visualize_graph_layout(layout[:num_nodes[i]], adj_matrix, size=(224,224))
returning an image tensor (flattened); `classify` is the classifier on a
batch of images, one pair of raw (pre-softmax) logits per image. -/
structure EvalFns where
  gen : ℚ → List Mat → List Mat → List ℕ → List Mat
  render : Mat → Mat → List ℚ
  classify : List (List ℚ) → List (ℚ × ℚ)

/-- Image batch built on lines 718-723: for each graph i, render the
generated layout truncated to num_nodes[i] with its adjacency matrix. -/
def eval_images (fns : EvalFns) (gen_layouts adjs : List Mat) (nn : List ℕ) :
    List (List ℚ) :=
  zipWith3 (fun layout adj m => fns.render (layout.take m) adj) gen_layouts adjs nn

/-- Classifier logits of one noise draw (lines 713-727): generate with noise
`z`, render, classify. -/
def eval_logits_at (fns : EvalFns) (b : EvalBatch) (z : ℚ) : List (ℚ × ℚ) :=
  let nn := eval_num_nodes b.layouts
  fns.classify (eval_images fns (fns.gen z b.layouts b.adjs nn) b.adjs nn)

/-- Pairwise sum of two logit batches (`accum_logits += outputs`, line 730). -/
def addPairs (x y : List (ℚ × ℚ)) : List (ℚ × ℚ) :=
  List.zipWith (fun p q => (p.1 + q.1, p.2 + q.2)) x y

/-- accum_logits after the sampling loop (lines 701-730): starts as
torch.zeros(batch_size, 2) and accumulates the raw logits of each of the
`num_z_samples` draws. -/
def eval_accum_logits (fns : EvalFns) (zs : ℕ → ℚ) (num_z_samples : ℕ)
    (b : EvalBatch) : List (ℚ × ℚ) :=
  (List.range num_z_samples).foldl
    (fun acc s => addPairs acc (eval_logits_at fns b (zs s)))
    (b.layouts.map fun _ => ((0 : ℚ), (0 : ℚ)))

/-- accum_logits /= float(num_z_samples) (line 733). -/
def eval_avg_logits (fns : EvalFns) (zs : ℕ → ℚ) (num_z_samples : ℕ)
    (b : EvalBatch) : List (ℚ × ℚ) :=
  (eval_accum_logits fns zs num_z_samples b).map
    fun p => (p.1 / (num_z_samples : ℚ), p.2 / (num_z_samples : ℚ))

/-- torch.max(logits, 1): index of the per-graph maximum of the two logits
(ties resolved to index 0). -/
def argmax2 (p : ℚ × ℚ) : ℕ := if p.1 < p.2 then 1 else 0

/-- `_, predicted = torch.max(accum_logits, 1)` (line 735). -/
def eval_predicted (fns : EvalFns) (zs : ℕ → ℚ) (num_z_samples : ℕ)
    (b : EvalBatch) : List ℕ :=
  (eval_avg_logits fns zs num_z_samples b).map argmax2

/-- Modelled from the spec side of the refinement (spec 4.6, claim C7):
the arg-max of a SINGLE generator-render-classify forward pass on one
noise draw. -/
def eval_single_pass_argmax (fns : EvalFns) (b : EvalBatch) (z : ℚ) : List ℕ :=
  (eval_logits_at fns b z).map argmax2

/-- Per-batch statistics of `evaluate_model` (lines 735-741): matching
predictions, batch size, and the batch F1 (third component of
calculate_f1(predicted, labels)). -/
def eval_batch_stats (fns : EvalFns) (z1 : ℕ → ℚ) (num_z_samples : ℕ)
    (b : EvalBatch) : ℕ × ℕ × ℚ :=
  let predicted := eval_predicted fns z1 num_z_samples b
  let correct := ((predicted.zip b.labels).countP fun x => decide (x.1 = x.2))
  let f1 := (calculate_f1 (predicted.map fun k => (k : ℚ))
    (b.labels.map fun k => (k : ℚ))).2.2
  (correct, b.labels.length, f1)

/-- The accumulation over the loader (`correct`, `total`, `total_f1`,
lines 680-741); the counter argument indexes the per-batch noise stream. -/
def eval_fold (fns : EvalFns) (zs : ℕ → ℕ → ℚ) (num_z_samples : ℕ) :
    ℕ → List EvalBatch → ℕ × ℕ × ℚ
  | _, [] => (0, 0, 0)
  | i, b :: rest =>
    let s := eval_batch_stats fns (zs i) num_z_samples b
    let r := eval_fold fns zs num_z_samples (i + 1) rest
    (s.1 + r.1, s.2.1 + r.2.1, s.2.2 + r.2.2)

/-- evaluate_model (lines 677-746).  The final lines divide by `total`
(accuracy, line 743) and by `len(test_loader)` (average F1, line 744)
without any guard; a zero denominator is a Python ZeroDivisionError,
modelled as `none`. -/
def evaluate_model (fns : EvalFns) (zs : ℕ → ℕ → ℚ) (num_z_samples : ℕ)
    (loader : List EvalBatch) : Option (ℚ × ℚ) :=
  let t := eval_fold fns zs num_z_samples 0 loader
  if t.2.1 = 0 then none
  else if loader.length = 0 then none
  else some (100 * (t.1 : ℚ) / (t.2.1 : ℚ), t.2.2 / (loader.length : ℚ))

/-- Discriminator-accuracy guard of `train_gan` (lines 243-249): when there
are no real or fake samples the accuracy defaults to 0.0 instead of
dividing by zero. -/
def discriminator_accuracy (correct_real correct_fake total_real total_fake : ℕ) : ℚ :=
  if 0 < total_real + total_fake then
    (((correct_real + correct_fake : ℕ) : ℚ) / ((total_real + total_fake : ℕ) : ℚ)) * 100
  else 0

/- ------------------------------------------------------------------ -/
/- Concrete instances used by counterexamples and witnesses            -/
/- ------------------------------------------------------------------ -/

/-- A concrete linear critic on a batch of one graph with one node and one
coordinate: D(s, a) = s + a, whose gradient is 1 with respect to each
input entry. -/
def cexCritic : Critic where
  score := fun s a => [s.headI.headI.headI + a.headI.headI.headI]
  gradSamples := fun _ _ => [[1]]
  gradAdj := fun _ _ => [[1]]

/-- Noise stream whose k-th draw is the rational k (draws distinguishable). -/
def natNoise : ℕ → ℚ := fun k => (k : ℚ)

/-- Concrete combined-loop batch collaborators on a batch of one graph with
one node and one coordinate: the generator output is the noise value
itself, so distinct draws give distinct layouts. -/
def cexCombFns : CombBatchFns where
  gen := fun z => [[[z]]]
  dscore := fun layouts => layouts.map fun m => m.headI.headI
  renderImages := fun layouts => layouts.map List.flatten
  clfLoss := fun images => images.headI.headI

/-- Concrete evaluation collaborators: the generator echoes the
conditioning layouts, rendering flattens the layout, and the classifier
scores each image by its first entry against 0. -/
def trivEvalFns : EvalFns where
  gen := fun _ layouts _ _ => layouts
  render := fun layout _ => layout.flatten
  classify := fun images => images.map fun img => (img.headI, 0)

/-- A concrete one-graph evaluation batch. -/
def cexEvalBatch : EvalBatch where
  layouts := [[[1, 2]]]
  adjs := [[[0]]]
  labels := [0]

/- ------------------------------------------------------------------ -/
/- Helper lemmas                                                       -/
/- ------------------------------------------------------------------ -/

theorem rowNormSq_nonneg (r : List ℚ) : 0 ≤ rowNormSq r := by
  unfold rowNormSq
  induction r with
  | nil => simp
  | cons x xs ih => simpa using add_nonneg (mul_self_nonneg x) ih

theorem rowNormSq_pos_iff (r : List ℚ) : 0 < rowNormSq r ↔ rowNormSq r ≠ 0 := by
  constructor
  · exact fun h => ne_of_gt h
  · exact fun h => lt_of_le_of_ne (rowNormSq_nonneg r) (Ne.symm h)

theorem rowNormSq_all_zero (r : List ℚ) (h : ∀ x ∈ r, x = 0) : rowNormSq r = 0 := by
  unfold rowNormSq
  induction r with
  | nil => simp
  | cons x xs ih =>
    have hx : x = 0 := h x (List.mem_cons_self x xs)
    have hxs : ∀ y ∈ xs, y = 0 := fun y hy => h y (List.mem_cons_of_mem x hy)
    simp [hx, ih hxs]

theorem graph_num_nodes_eq_countP (g : Mat) :
    graph_num_nodes g = g.countP fun r => decide (rowNormSq r ≠ 0) := by
  unfold graph_num_nodes
  induction g with
  | nil => simp
  | cons r rs ih =>
    simp only [List.map_cons, List.count_cons, List.countP_cons, ih]
    by_cases h : rowNormSq r ≠ 0
    · simp [h, (rowNormSq_pos_iff r).mpr h]
    · have h0 : ¬ 0 < rowNormSq r := fun hp => h ((rowNormSq_pos_iff r).mp hp)
      simp [h, h0]

theorem zipWith3_interp_row (aRow rRow : List ℚ) (h : aRow.length = rRow.length) :
    zipWith3 (fun a r f => a * r + (1 - a) * f) aRow rRow rRow = rRow := by
  induction aRow generalizing rRow with
  | nil =>
    cases rRow with
    | nil => rfl
    | cons r rs => simp at h
  | cons a as ih =>
    cases rRow with
    | nil => simp at h
    | cons r rs =>
      have h' : as.length = rs.length := by simpa using h
      simp only [zipWith3, ih rs h', List.cons.injEq, and_true]
      ring

theorem zipWith3_interp_mat (aM rM : Mat)
    (h : aM.map List.length = rM.map List.length) :
    zipWith3 (fun aRow rRow fRow =>
      zipWith3 (fun a r f => a * r + (1 - a) * f) aRow rRow fRow) aM rM rM = rM := by
  induction aM generalizing rM with
  | nil =>
    cases rM with
    | nil => rfl
    | cons r rs => simp at h
  | cons a as ih =>
    cases rM with
    | nil => simp at h
    | cons r rs =>
      simp only [List.map_cons, List.cons.injEq] at h
      simp only [zipWith3, ih rs h.2, List.cons.injEq, and_true]
      exact zipWith3_interp_row a r h.1

theorem interpolated_adj_self (alpha adj : List Mat) (h : shape3 alpha = shape3 adj) :
    interpolated_adj alpha adj adj = adj := by
  unfold interpolated_adj
  induction alpha generalizing adj with
  | nil =>
    cases adj with
    | nil => rfl
    | cons r rs => simp [shape3] at h
  | cons a as ih =>
    cases adj with
    | nil => simp [shape3] at h
    | cons r rs =>
      simp only [shape3, List.map_cons, List.cons.injEq] at h
      have hrest : shape3 as = shape3 rs := by simpa [shape3] using h.2
      simp only [zipWith3, ih rs hrest, List.cons.injEq, and_true]
      exact zipWith3_interp_mat a r (by simpa using h.1)

theorem addPairs_zeros (L : List Mat) (v : List (ℚ × ℚ)) (h : v.length = L.length) :
    addPairs (L.map fun _ => ((0 : ℚ), (0 : ℚ))) v = v := by
  induction L generalizing v with
  | nil =>
    cases v with
    | nil => rfl
    | cons p ps => simp at h
  | cons x xs ih =>
    cases v with
    | nil => simp at h
    | cons p ps =>
      have h' : ps.length = xs.length := by simpa using h
      simp [addPairs] at ih ⊢
      exact ih ps h'

/-- Standard true-positive count on a binary prediction/label pair. -/
def tpCount (ps ls : List ℚ) : ℕ :=
  (ps.zip ls).countP fun x => decide (x.1 = 1 ∧ x.2 = 1)

/-- Standard false-positive count. -/
def fpCount (ps ls : List ℚ) : ℕ :=
  (ps.zip ls).countP fun x => decide (x.1 = 1 ∧ x.2 = 0)

/-- Standard false-negative count. -/
def fnCount (ps ls : List ℚ) : ℕ :=
  (ps.zip ls).countP fun x => decide (x.1 = 0 ∧ x.2 = 1)

theorem binary_zip_sum (f : ℚ → ℚ → ℚ) (g : ℚ × ℚ → Bool)
    (h00 : f 0 0 = if g (0, 0) then 1 else 0)
    (h01 : f 0 1 = if g (0, 1) then 1 else 0)
    (h10 : f 1 0 = if g (1, 0) then 1 else 0)
    (h11 : f 1 1 = if g (1, 1) then 1 else 0) :
    ∀ ps ls, IsBinary ps → IsBinary ls →
      (List.zipWith f ps ls).sum = (((ps.zip ls).countP g : ℕ) : ℚ) := by
  intro ps
  induction ps with
  | nil => intro ls _ _; simp
  | cons p pt ih =>
    intro ls hp hl
    cases ls with
    | nil => simp
    | cons l lt =>
      have hpt : IsBinary pt := fun x hx => hp x (List.mem_cons_of_mem _ hx)
      have hlt : IsBinary lt := fun x hx => hl x (List.mem_cons_of_mem _ hx)
      have hp0 := hp p (List.mem_cons_self _ _)
      have hl0 := hl l (List.mem_cons_self _ _)
      simp only [List.zipWith_cons_cons, List.sum_cons, List.zip_cons_cons,
        List.countP_cons, ih lt hpt hlt]
      rcases hp0 with rfl | rfl <;> rcases hl0 with rfl | rfl <;>
        [rw [h00]; rw [h01]; rw [h10]; rw [h11]] <;>
        split_ifs with hgv <;> push_cast <;> ring

theorem tp_sum_eq (ps ls : List ℚ) (hp : IsBinary ps) (hl : IsBinary ls) :
    (List.zipWith (fun p l => p * l) ps ls).sum = ((tpCount ps ls : ℕ) : ℚ) := by
  unfold tpCount
  exact binary_zip_sum _ _ (by norm_num) (by norm_num) (by norm_num) (by norm_num)
    ps ls hp hl

theorem fp_sum_eq (ps ls : List ℚ) (hp : IsBinary ps) (hl : IsBinary ls) :
    (List.zipWith (fun p l => p * (1 - l)) ps ls).sum = ((fpCount ps ls : ℕ) : ℚ) := by
  unfold fpCount
  exact binary_zip_sum _ _ (by norm_num) (by norm_num) (by norm_num) (by norm_num)
    ps ls hp hl

theorem fn_sum_eq (ps ls : List ℚ) (hp : IsBinary ps) (hl : IsBinary ls) :
    (List.zipWith (fun p l => (1 - p) * l) ps ls).sum = ((fnCount ps ls : ℕ) : ℚ) := by
  unfold fnCount
  exact binary_zip_sum _ _ (by norm_num) (by norm_num) (by norm_num) (by norm_num)
    ps ls hp hl

theorem zip_self_mem_eq (l : List ℚ) : ∀ x ∈ l.zip l, x.1 = x.2 := by
  induction l with
  | nil => intro x hx; simp at hx
  | cons a t ih =>
    intro x hx
    simp only [List.zip_cons_cons, List.mem_cons] at hx
    rcases hx with rfl | hx
    · rfl
    · exact ih x hx

theorem fpCount_self (ps : List ℚ) : fpCount ps ps = 0 := by
  unfold fpCount
  rw [List.countP_eq_zero]
  intro x hx
  have h := zip_self_mem_eq ps x hx
  simp only [decide_eq_true_eq]
  rintro ⟨h1, h2⟩
  rw [h, h2] at h1
  norm_num at h1

theorem fnCount_self (ps : List ℚ) : fnCount ps ps = 0 := by
  unfold fnCount
  rw [List.countP_eq_zero]
  intro x hx
  have h := zip_self_mem_eq ps x hx
  simp only [decide_eq_true_eq]
  rintro ⟨h1, h2⟩
  rw [h, h2] at h1
  norm_num at h1

theorem log2_eq_of_between (x : ℚ) (z : ℤ) (hx : 0 < x)
    (h1 : (2 : ℚ) ^ z ≤ x) (h2 : x < (2 : ℚ) ^ (z + 1)) : Int.log 2 x = z := by
  have ha : z ≤ Int.log 2 x := (Int.zpow_le_iff_le_log (b := 2) (by norm_num) hx).mp h1
  have hb : Int.log 2 x < z + 1 :=
    (Int.lt_zpow_iff_log_lt (b := 2) (by norm_num) hx).mp h2
  omega

theorem round32_zero : round32 0 = 0 := by simp [round32]

theorem round32_near_int (n : ℕ) (x : ℚ) (hn1 : 1 ≤ n) (hn2 : n < 2 ^ 24)
    (hlo : (n : ℚ) ≤ x) (hhi : x < (n : ℚ) + 1 / 2 ^ 25) :
    round32 x = (n : ℚ) := by
  have hn1q : (1 : ℚ) ≤ (n : ℚ) := by exact_mod_cast hn1
  have hx_pos : 0 < x := by linarith
  have hL_ge : (0 : ℤ) ≤ Int.log 2 x := by
    apply (Int.zpow_le_iff_le_log (b := 2) (by norm_num) hx_pos).mp
    simpa using le_trans hn1q hlo
  have hL_le : Int.log 2 x ≤ 23 := by
    have hn2q : (n : ℚ) + 1 ≤ 2 ^ 24 := by exact_mod_cast hn2
    have hx24 : x < (2 : ℚ) ^ (24 : ℤ) := by
      have h1 : (1 : ℚ) / 2 ^ 25 < 1 := by norm_num
      have h2 : (2 : ℚ) ^ (24 : ℤ) = 2 ^ 24 := by norm_num
      rw [h2]
      linarith
    have h24 := (Int.lt_zpow_iff_log_lt (b := 2) (by norm_num) hx_pos).mp hx24
    omega
  unfold round32
  rw [if_neg (not_le.mpr hx_pos)]
  show ((round (x / 2 ^ (Int.log 2 x - 23)) : ℤ) : ℚ) * 2 ^ (Int.log 2 x - 23) = (n : ℚ)
  generalize Int.log 2 x = L at hL_ge hL_le ⊢
  have h2e_pos : (0 : ℚ) < (2 : ℚ) ^ (L - 23) := zpow_pos (by norm_num) _
  have hMnat : ((2 : ℚ) ^ (23 - L).toNat) = (2 : ℚ) ^ ((23 : ℤ) - L) := by
    rw [← zpow_natCast, Int.toNat_of_nonneg (by omega)]
  have hMmul : (((n : ℤ) * 2 ^ (23 - L).toNat : ℤ) : ℚ) * 2 ^ (L - 23) = (n : ℚ) := by
    push_cast
    rw [hMnat, mul_assoc, ← zpow_add₀ (by norm_num : (2 : ℚ) ≠ 0)]
    have hz : (23 : ℤ) - L + (L - 23) = 0 := by ring
    rw [hz, zpow_zero, mul_one]
  have hexp : (1 : ℚ) / 2 ^ 25 ≤ (2 : ℚ) ^ (L - 23) / 2 := by
    have ha : (2 : ℚ) ^ (-25 : ℤ) ≤ (2 : ℚ) ^ (L - 24) :=
      zpow_le_zpow_right₀ (by norm_num) (by omega)
    have hb : (2 : ℚ) ^ (-25 : ℤ) = 1 / 2 ^ 25 := by norm_num
    have hc : (2 : ℚ) ^ (L - 24) = (2 : ℚ) ^ (L - 23) / 2 := by
      rw [eq_div_iff (by norm_num : (2 : ℚ) ≠ 0),
        ← zpow_add_one₀ (by norm_num : (2 : ℚ) ≠ 0)]
      congr 1
      omega
    rw [hb, hc] at ha
    exact ha
  have hfloor : round (x / 2 ^ (L - 23)) = (n : ℤ) * 2 ^ (23 - L).toNat := by
    rw [round_eq, Int.floor_eq_iff]
    constructor
    · have hmlo : (((n : ℤ) * 2 ^ (23 - L).toNat : ℤ) : ℚ) ≤ x / 2 ^ (L - 23) := by
        rw [le_div_iff₀ h2e_pos, hMmul]
        exact hlo
      linarith
    · have hmhi : x / 2 ^ (L - 23) <
          (((n : ℤ) * 2 ^ (23 - L).toNat : ℤ) : ℚ) + 1 / 2 := by
        rw [div_lt_iff₀ h2e_pos, add_mul, hMmul]
        have hh : (1 : ℚ) / 2 * 2 ^ (L - 23) = 2 ^ (L - 23) / 2 := by ring
        rw [hh]
        linarith
      linarith
  rw [hfloor, hMmul]

theorem round32_int (n : ℕ) (hn1 : 1 ≤ n) (hn2 : n < 2 ^ 24) :
    round32 (n : ℚ) = (n : ℚ) :=
  round32_near_int n _ hn1 hn2 le_rfl (lt_add_of_pos_right _ (by norm_num))

theorem round32_one : round32 1 = 1 := by
  exact_mod_cast round32_int 1 (by norm_num) (by norm_num)

theorem round32_two : round32 2 = 2 := by
  exact_mod_cast round32_int 2 (by norm_num) (by norm_num)

theorem eps32_val : eps32 = 11258999 / 1125899906842624 := by
  have hx : (0 : ℚ) < 1 / 100000000 := by norm_num
  have hlog : Int.log 2 ((1 : ℚ) / 100000000) = -27 :=
    log2_eq_of_between _ _ hx (by norm_num) (by norm_num)
  unfold eps32 round32
  rw [if_neg (not_le.mpr hx)]
  show ((round (((1 : ℚ) / 100000000) /
      2 ^ (Int.log 2 ((1 : ℚ) / 100000000) - 23)) : ℤ) : ℚ) *
      2 ^ (Int.log 2 ((1 : ℚ) / 100000000) - 23) = 11258999 / 1125899906842624
  rw [hlog]
  have hdiv : ((1 : ℚ) / 100000000) / 2 ^ ((-27 : ℤ) - 23) =
      1125899906842624 / 100000000 := by norm_num
  rw [hdiv]
  have hround : round ((1125899906842624 : ℚ) / 100000000) = 11258999 := by
    rw [round_eq, Int.floor_eq_iff]
    constructor <;> norm_num
  rw [hround]
  norm_num

theorem eps32_pos : 0 < eps32 := by rw [eps32_val]; norm_num

theorem eps32_small : eps32 < 1 / 2 ^ 25 := by rw [eps32_val]; norm_num

theorem round32_absorb (n : ℕ) (hn1 : 1 ≤ n) (hn2 : n < 2 ^ 24) :
    round32 ((n : ℚ) + eps32) = (n : ℚ) :=
  round32_near_int n _ hn1 hn2 (by linarith [eps32_pos])
    (by linarith [eps32_small])

theorem calculate_f1_f32_closed (ps ls : List ℚ) (hp : IsBinary ps)
    (hl : IsBinary ls) :
    calculate_f1_f32 ps ls =
      (let tp : ℚ := (tpCount ps ls : ℕ)
       let fpc : ℚ := (fpCount ps ls : ℕ)
       let fnc : ℚ := (fnCount ps ls : ℕ)
       let P := f32div tp (f32add (f32add tp fpc) eps32)
       let R := f32div tp (f32add (f32add tp fnc) eps32)
       (P, R, f32div (f32mul 2 (f32mul P R)) (f32add (f32add P R) eps32))) := by
  simp only [calculate_f1_f32, tp_sum_eq ps ls hp hl, fp_sum_eq ps ls hp hl,
    fn_sum_eq ps ls hp hl]

theorem calculate_f1_f32_tp_zero (ps ls : List ℚ) (hp : IsBinary ps)
    (hl : IsBinary ls) (h : tpCount ps ls = 0) :
    (calculate_f1_f32 ps ls).2.2 = 0 := by
  rw [calculate_f1_f32_closed ps ls hp hl]
  simp [h, f32div, f32mul, zero_div, round32_zero, mul_zero, zero_mul]

theorem calculate_f1_f32_identical (ps : List ℚ) (hp : IsBinary ps)
    (hpos : 0 < tpCount ps ps) (hlen : ps.length < 2 ^ 24) :
    (calculate_f1_f32 ps ps).2.2 = 1 := by
  rw [calculate_f1_f32_closed ps ps hp hp]
  set t : ℕ := tpCount ps ps with htdef
  have ht1 : 1 ≤ t := hpos
  have ht2 : t < 2 ^ 24 := by
    have hle : t ≤ (ps.zip ps).length := by
      rw [htdef]
      exact List.countP_le_length _
    have hzl : (ps.zip ps).length = ps.length := by simp
    omega
  have e1 : f32add ((t : ℚ)) 0 = (t : ℚ) := by
    rw [f32add, add_zero]
    exact round32_int t ht1 ht2
  have e2 : f32add ((t : ℚ)) eps32 = (t : ℚ) := round32_absorb t ht1 ht2
  have e3 : f32div ((t : ℚ)) ((t : ℚ)) = 1 := by
    rw [f32div, div_self (by exact_mod_cast Nat.pos_iff_ne_zero.mp ht1 : (t : ℚ) ≠ 0)]
    exact round32_one
  have e4 : f32mul 1 1 = 1 := by
    rw [f32mul, mul_one]
    exact round32_one
  have e5 : f32mul 2 1 = 2 := by
    rw [f32mul, mul_one]
    exact round32_two
  have e6 : f32add 1 1 = 2 := by
    rw [f32add, show (1 : ℚ) + 1 = 2 by norm_num]
    exact round32_two
  have e7 : f32add 2 eps32 = 2 := by
    have := round32_absorb 2 (by norm_num) (by norm_num)
    rw [f32add]
    exact_mod_cast this
  have e8 : f32div 2 2 = 1 := by
    rw [f32div, div_self (by norm_num : (2 : ℚ) ≠ 0)]
    exact round32_one
  simp only [fpCount_self, fnCount_self, Nat.cast_zero]
  simp only [e1, e2, e3, e4, e5, e6, e7, e8]

theorem es_fold_nonimp (p : ℕ) (b : ℚ) :
    ∀ (xs : List ℚ) (c : ℕ) (s : Bool), (∀ x ∈ xs, ¬ x < b) →
      List.foldl (es_step p) ⟨some b, c, s⟩ xs =
        ⟨some b, c + xs.length, s || (decide (p ≤ c + xs.length) && !xs.isEmpty)⟩ := by
  intro xs
  induction xs with
  | nil => intro c s _; simp
  | cons x t ih =>
    intro c s h
    have hx : ¬ x < b := h x (List.mem_cons_self _ _)
    have ht : ∀ y ∈ t, ¬ y < b := fun y hy => h y (List.mem_cons_of_mem _ hy)
    have hstep : es_step p ⟨some b, c, s⟩ x =
        ⟨some b, c + 1, s || decide (p ≤ c + 1)⟩ := by
      simp [es_step, improves, hx]
    rw [List.foldl_cons, hstep, ih (c + 1) (s || decide (p ≤ c + 1)) ht]
    have hc : c + 1 + t.length = c + (t.length + 1) := by omega
    cases t with
    | nil => simp [hc]
    | cons y ys =>
      simp only [List.isEmpty_cons, Bool.not_false, Bool.and_true, List.length_cons, hc]
      have himp : p ≤ c + 1 → p ≤ c + (ys.length + 1 + 1) := by omega
      by_cases h1 : p ≤ c + 1 <;> by_cases h2 : p ≤ c + (ys.length + 1 + 1) <;>
        simp [h1, h2] <;> omega

theorem comb_epoch_rows (p e : ℕ) (a : ℚ) (s : CombState) :
    (comb_epoch p e a s).rows = s.rows + 1 ∧
      (comb_epoch p e a s).executed = s.executed + 1 := by
  simp only [comb_epoch]
  split_ifs <;> simp

theorem comb_loop_full (p : ℕ) (acc : ℕ → ℚ) :
    ∀ (n e : ℕ) (s : CombState), (comb_loop p acc n e s).stopped = false →
      (comb_loop p acc n e s).rows = s.rows + n ∧
        (comb_loop p acc n e s).executed = s.executed + n := by
  intro n
  induction n with
  | zero => intro e s _; simp [comb_loop]
  | succ m ih =>
    intro e s hstop
    by_cases hs : s.stopped
    · rw [comb_loop, if_pos hs] at hstop ⊢
      exact absurd hstop (by simp [hs])
    · rw [comb_loop, if_neg hs] at hstop ⊢
      obtain ⟨hr, hx⟩ := ih (e + 1) (comb_epoch p e (acc e) s) hstop
      obtain ⟨hr2, hx2⟩ := comb_epoch_rows p e (acc e) s
      constructor
      · rw [hr, hr2]; omega
      · rw [hx, hx2]; omega

theorem gan_loop_rows_executed (p nb : ℕ) (losses : ℕ → ℚ × ℚ) :
    ∀ (n e : ℕ) (st : GanState),
      (gan_loop p nb losses n e st).rows + st.executed =
        (gan_loop p nb losses n e st).executed + st.rows := by
  intro n
  induction n with
  | zero => intro e st; simp [gan_loop, Nat.add_comm]
  | succ m ih =>
    intro e st
    rw [gan_loop]
    split_ifs with h
    · exact Nat.add_comm _ _
    · have h1 : (gan_epoch p nb st (losses e).1 (losses e).2).rows = st.rows + 1 := rfl
      have h2 : (gan_epoch p nb st (losses e).1 (losses e).2).executed =
          st.executed + 1 := rfl
      have h3 := ih (e + 1) (gan_epoch p nb st (losses e).1 (losses e).2)
      omega

/- ------------------------------------------------------------------ -/
/- Claim theorems                                                      -/
/- ------------------------------------------------------------------ -/

/-- C9: for every batch of layouts, the derived num_nodes[i] equals the
number of coordinate rows of graph i with nonzero L2 norm (nonzero norm of
a real row is equivalent to nonzero squared norm); a graph whose rows are
all zero yields num_nodes[i] = 0; and the derivation is the same
expression in the pretraining loop, the combined loop and evaluation. -/
theorem C9_num_nodes_derivation :
    (∀ layouts : List Mat, combined_num_nodes layouts = layouts.map graph_num_nodes) ∧
    (∀ g : Mat, graph_num_nodes g = g.countP fun r => decide (rowNormSq r ≠ 0)) ∧
    (∀ g : Mat, (∀ r ∈ g, ∀ x ∈ r, x = 0) → graph_num_nodes g = 0) ∧
    train_gan_num_nodes = combined_num_nodes ∧ eval_num_nodes = combined_num_nodes := by
  refine ⟨fun _ => rfl, graph_num_nodes_eq_countP, ?_, rfl, rfl⟩
  intro g hg
  rw [graph_num_nodes_eq_countP, List.countP_eq_zero]
  intro r hr
  simp only [decide_eq_true_eq, ne_eq, not_not]
  exact rowNormSq_all_zero r (hg r hr)

/-- Witness for C9 at a concrete all-zero layout. -/
theorem C9_witness : graph_num_nodes [[0, 0], [0, 0]] = 0 :=
  C9_num_nodes_derivation.2.2.1 [[0, 0], [0, 0]] (by decide)

/-- C10: at both call sites of compute_gradient_penalty the real and fake
adjacency arguments are the same tensor, and interpolating a matrix with
itself is the identity for every per-entry coefficient matrix of matching
shape, so the interpolated adjacency fed to the critic always equals the
batch adjacency. -/
theorem C10_adj_interpolation_identity :
    (∀ adj, (train_gan_gp_adj_args adj).1 = (train_gan_gp_adj_args adj).2) ∧
    (∀ adj, (combined_gp_adj_args adj).1 = (combined_gp_adj_args adj).2) ∧
    (∀ alpha adj, shape3 alpha = shape3 adj →
      interpolated_adj alpha (train_gan_gp_adj_args adj).1
        (train_gan_gp_adj_args adj).2 = adj) ∧
    (∀ alpha adj, shape3 alpha = shape3 adj →
      interpolated_adj alpha (combined_gp_adj_args adj).1
        (combined_gp_adj_args adj).2 = adj) := by
  exact ⟨fun _ => rfl, fun _ => rfl,
    fun alpha adj h => interpolated_adj_self alpha adj h,
    fun alpha adj h => interpolated_adj_self alpha adj h⟩

/-- Witness for C10 at a concrete coefficient matrix and adjacency. -/
theorem C10_witness :
    interpolated_adj [[[1/3, 1/2], [2/3, 1/4]]]
      (train_gan_gp_adj_args [[[0, 1], [1, 0]]]).1
      (train_gan_gp_adj_args [[[0, 1], [1, 0]]]).2 = [[[0, 1], [1, 0]]] :=
  C10_adj_interpolation_identity.2.2.1 [[[1/3, 1/2], [2/3, 1/4]]] [[[0, 1], [1, 0]]]
    (by decide)

/-- C2 counterexample: for a concrete linear critic whose gradient with
respect to the adjacency input is nonzero, the per-sample squared norm
computed by compute_gradient_penalty (which indexes the autograd result
with [0]) differs from the squared norm of the combined gradient with
respect to both interpolated inputs. -/
theorem C2_counterexample :
    gp_norm_sq cexCritic [1/2] [[[1/2]]] [[[0]]] [[[2]]] [[[0]]] [[[1]]] ≠
      gp_combined_norm_sq cexCritic [1/2] [[[1/2]]] [[[0]]] [[[2]]] [[[0]]] [[[1]]] := by
  norm_num [gp_norm_sq, gp_combined_norm_sq, gp_used_gradients, autograd_grad,
    interpolated_samples, interpolated_adj, cexCritic, rowNormSq, zipWith3]

/-- C2 amended: the per-sample (squared) norm entering the penalty is that
of the critic's gradient with respect to the interpolated coordinates
alone — `torch.autograd.grad` returns one gradient per input and the `[0]`
index selects the samples gradient, discarding the adjacency gradient. -/
theorem C2_samples_gradient_only (D : Critic) (alpha_samples : List ℚ)
    (alpha_adj real_samples fake_samples real_adj fake_adj : List Mat) :
    gp_norm_sq D alpha_samples alpha_adj real_samples fake_samples real_adj fake_adj =
      (D.gradSamples (interpolated_samples alpha_samples real_samples fake_samples)
        (interpolated_adj alpha_adj real_adj fake_adj)).map rowNormSq := rfl

/-- C6 counterexample: on an empty loader, evaluate_model hits a division
by zero (total = 0 on line 743) and aborts — modelled as `none` — instead
of returning safe default accuracy and F1 values. -/
theorem C6_counterexample :
    evaluate_model trivEvalFns (fun _ _ => 0) 5 [] = none := rfl

/-- C6 amended: evaluate_model has no empty-loader guard — for every choice
of collaborators and noise it aborts with a zero division on an empty
loader; the safe default for an empty sample set exists only in train_gan's
discriminator-accuracy computation, which returns 0 when there are no real
or fake samples. -/
theorem C6_empty_split_behavior :
    (∀ (fns : EvalFns) (zs : ℕ → ℕ → ℚ) (n : ℕ),
      evaluate_model fns zs n [] = none) ∧
    (∀ cr cf : ℕ, discriminator_accuracy cr cf 0 0 = 0) := by
  constructor
  · intro fns zs n; rfl
  · intro cr cf; simp [discriminator_accuracy]

/-- C1: evaluation of the generator+classifier step at a concrete failing
input (two noise draws, noise stream k ↦ k, generator z ↦ [[z]] so the
output depends on the draw): every iteration of the generator step renders
the layout held by `generated_layouts` — the critic step's last draw — and
never the freshly generated `gen_layouts`, so the classifier losses are
identical across draws and their mean equals the classifier loss of that
single stale layout. -/
theorem C1_stale_layout_rendered :
    gen_step_rendered cexCombFns natNoise 2 =
      [critic_step_last cexCombFns natNoise 2, critic_step_last cexCombFns natNoise 2] ∧
    gen_step_fresh_layouts cexCombFns natNoise 2 = [[[[2]]], [[[3]]]] ∧
    gen_step_rendered cexCombFns natNoise 2 ≠
      gen_step_fresh_layouts cexCombFns natNoise 2 ∧
    gen_step_clf_losses cexCombFns natNoise 2 = [1, 1] ∧
    mean_clf_loss cexCombFns natNoise 2 =
      cexCombFns.clfLoss (cexCombFns.renderImages (critic_step_last cexCombFns natNoise 2)) := by
  refine ⟨?_, ?_, ?_, ?_, ?_⟩
  · simp [gen_step_rendered, List.range_succ]
  · norm_num [gen_step_fresh_layouts, cexCombFns, natNoise, List.range_succ]
  · norm_num [gen_step_rendered, gen_step_fresh_layouts, critic_step_last,
      critic_step_layouts, cexCombFns, natNoise, List.range_succ]
  · simp [gen_step_clf_losses, gen_step_rendered, critic_step_last,
      critic_step_layouts, cexCombFns, natNoise, List.range_succ]
  · norm_num [mean_clf_loss, mean, gen_step_clf_losses, gen_step_rendered,
      critic_step_last, critic_step_layouts, cexCombFns, natNoise, List.range_succ]

/-- C3 counterexample: identical predictions and labels do NOT always give
F1 = 1: with no true positive (here the all-negative pair [0], [0]) the
returned F1 is 0, in float32 exactly as in exact arithmetic. -/
theorem C3_counterexample : (calculate_f1_f32 [0] [0]).2.2 ≠ 1 := by
  have h := calculate_f1_f32_tp_zero [0] [0]
    (by intro x hx; rcases List.mem_singleton.mp hx with rfl; norm_num)
    (by intro x hx; rcases List.mem_singleton.mp hx with rfl; norm_num)
    (by decide)
  rw [h]
  norm_num

/-- C3 amended: for binary prediction/label tensors (batch below 2^24, so
the float32 count sums are exact), calculate_f1 returns the float32
evaluation of the closed form 2PR/(P+R+eps) with P = tp/(tp+fp+eps),
R = tp/(tp+fn+eps), eps = float32(1e-8), over the standard confusion
counts; disjoint predictions give F1 = 0; identical predictions give
F1 = 1 exactly when at least one true positive exists (the eps guard is
absorbed by float32 rounding in the 1.0-scale and 2.0-scale sums), and
F1 = 0 when there is none. -/
theorem C3_f1_closed_form_and_extremes :
    (∀ ps ls, IsBinary ps → IsBinary ls →
      calculate_f1_f32 ps ls =
        (let tp : ℚ := (tpCount ps ls : ℕ)
         let fpc : ℚ := (fpCount ps ls : ℕ)
         let fnc : ℚ := (fnCount ps ls : ℕ)
         let P := f32div tp (f32add (f32add tp fpc) eps32)
         let R := f32div tp (f32add (f32add tp fnc) eps32)
         (P, R, f32div (f32mul 2 (f32mul P R)) (f32add (f32add P R) eps32)))) ∧
    (∀ ps ls, IsBinary ps → IsBinary ls →
      (∀ x ∈ ps.zip ls, ¬(x.1 = 1 ∧ x.2 = 1)) →
      (calculate_f1_f32 ps ls).2.2 = 0) ∧
    (∀ ps, IsBinary ps → 0 < tpCount ps ps → ps.length < 2 ^ 24 →
      (calculate_f1_f32 ps ps).2.2 = 1) ∧
    (∀ ps, IsBinary ps → tpCount ps ps = 0 → (calculate_f1_f32 ps ps).2.2 = 0) := by
  refine ⟨calculate_f1_f32_closed, ?_, calculate_f1_f32_identical,
    fun ps hp h0 => calculate_f1_f32_tp_zero ps ps hp hp h0⟩
  intro ps ls hp hl hdisj
  apply calculate_f1_f32_tp_zero ps ls hp hl
  unfold tpCount
  rw [List.countP_eq_zero]
  intro x hx
  simpa using hdisj x hx

/-- Witness for C3 at the concrete identical pair [1], [1], whose float32
F1 is exactly 1. -/
theorem C3_witness : (calculate_f1_f32 [1] [1]).2.2 = 1 :=
  C3_f1_closed_form_and_extremes.2.2.1 [1]
    (by intro x hx; rcases List.mem_singleton.mp hx with rfl; norm_num)
    (by decide) (by norm_num)

/-- C5: the joint checkpoint of the combined loop is written if and only if
the epoch's validation accuracy strictly exceeds the best so far; on an
improving epoch the shared counter resets to 0, the stored best and the
checkpoint contents update; otherwise checkpoint and best are unchanged and
the counter increments; the early-stop flag fires exactly when the counter
has reached patience, and once it is set no further epoch runs. -/
theorem C5_checkpoint_gating :
    (∀ (p e : ℕ) (a : ℚ) (s : CombState),
      ((comb_epoch p e a s).saves = s.saves + 1 ↔ s.bestAcc < a)) ∧
    (∀ (p e : ℕ) (a : ℚ) (s : CombState), s.bestAcc < a →
      (comb_epoch p e a s).ckpt = some (e, a) ∧
        (comb_epoch p e a s).bestAcc = a ∧ (comb_epoch p e a s).noImp = 0) ∧
    (∀ (p e : ℕ) (a : ℚ) (s : CombState), ¬ s.bestAcc < a →
      (comb_epoch p e a s).ckpt = s.ckpt ∧
        (comb_epoch p e a s).bestAcc = s.bestAcc ∧
        (comb_epoch p e a s).saves = s.saves ∧
        (comb_epoch p e a s).noImp = s.noImp + 1) ∧
    (∀ (p e : ℕ) (a : ℚ) (s : CombState),
      (comb_epoch p e a s).stopped =
        (s.stopped || decide (p ≤ (comb_epoch p e a s).noImp))) ∧
    (∀ (p : ℕ) (acc : ℕ → ℚ) (n e : ℕ) (s : CombState), s.stopped = true →
      comb_loop p acc n e s = s) := by
  refine ⟨?_, ?_, ?_, ?_, ?_⟩
  · intro p e a s
    simp only [comb_epoch]
    split_ifs with h1 <;> simp [h1]
  · intro p e a s h
    simp only [comb_epoch]
    split_ifs <;> simp_all
  · intro p e a s h
    simp only [comb_epoch]
    split_ifs <;> simp_all
  · intro p e a s
    simp only [comb_epoch]
    split_ifs <;> simp_all
  · intro p acc n e s h
    cases n with
    | zero => rfl
    | succ m => rw [comb_loop, if_pos h]

/-- Witness for C5 at a concrete improving epoch from the initial state. -/
theorem C5_witness :
    (comb_epoch 3 0 5 comb_init).ckpt = some (0, 5) ∧
      (comb_epoch 3 0 5 comb_init).bestAcc = 5 ∧
      (comb_epoch 3 0 5 comb_init).noImp = 0 :=
  C5_checkpoint_gating.2.1 3 0 5 comb_init (by decide)

/-- C8: if the combined loop runs all N epochs without early stop, its CSV
holds exactly N+1 data rows (the epoch-0 baseline plus one per epoch);
the pretraining loop's CSV always holds exactly one data row per epoch
body executed, with no baseline row. -/
theorem C8_csv_row_counts :
    (∀ (p : ℕ) (acc : ℕ → ℚ) (N : ℕ),
      (comb_loop p acc N 0 comb_init).stopped = false →
      (comb_loop p acc N 0 comb_init).rows = N + 1) ∧
    (∀ (p nb : ℕ) (losses : ℕ → ℚ × ℚ) (n : ℕ),
      (gan_loop p nb losses n 0 gan_init).rows =
        (gan_loop p nb losses n 0 gan_init).executed) := by
  constructor
  · intro p acc N h
    have h2 := (comb_loop_full p acc N 0 comb_init h).1
    have h3 : comb_init.rows = 1 := rfl
    omega
  · intro p nb losses n
    have h2 := gan_loop_rows_executed p nb losses n 0 gan_init
    have h3 : gan_init.rows = 0 := rfl
    have h4 : gan_init.executed = 0 := rfl
    omega

/-- Witness for C8: a run of 3 epochs that never improves enough to stop
(patience 5) yields 3 + 1 = 4 data rows in the combined loop's CSV. -/
theorem C8_witness : (comb_loop 5 natNoise 3 0 comb_init).rows = 3 + 1 :=
  C8_csv_row_counts.1 5 natNoise 3 (by decide)

/-- C7: evaluate_model's per-batch prediction is the per-graph arg-max of
the accumulated raw logits divided by the number of noise draws, and with
num_z_samples = 1 it coincides with the arg-max of the single
generator-render-classify forward pass on the one draw. -/
theorem C7_ensemble_argmax :
    (∀ (fns : EvalFns) (zs : ℕ → ℚ) (n : ℕ) (b : EvalBatch),
      eval_predicted fns zs n b =
        (eval_accum_logits fns zs n b).map fun p =>
          argmax2 (p.1 / (n : ℚ), p.2 / (n : ℚ))) ∧
    (∀ (fns : EvalFns) (zs : ℕ → ℚ) (b : EvalBatch),
      (eval_logits_at fns b (zs 0)).length = b.layouts.length →
      eval_predicted fns zs 1 b = eval_single_pass_argmax fns b (zs 0)) := by
  constructor
  · intro fns zs n b
    simp [eval_predicted, eval_avg_logits, List.map_map, Function.comp]
  · intro fns zs b hL
    unfold eval_predicted eval_avg_logits eval_accum_logits eval_single_pass_argmax
    simp only [List.range_succ, List.range_zero, List.nil_append,
      List.foldl_cons, List.foldl_nil]
    rw [addPairs_zeros b.layouts _ hL]
    simp [Nat.cast_one, div_one, List.map_map, Function.comp]

/-- Witness for C7 at a concrete batch and collaborators. -/
theorem C7_witness :
    eval_predicted trivEvalFns (fun _ => 0) 1 cexEvalBatch =
      eval_single_pass_argmax trivEvalFns cexEvalBatch 0 :=
  C7_ensemble_argmax.2 trivEvalFns (fun _ => 0) cexEvalBatch (by
    simp [eval_logits_at, eval_images, eval_num_nodes, trivEvalFns, cexEvalBatch,
      zipWith3])

/-- C4: in the pretraining loop, per network: a strictly increasing sequence
of epoch-average losses of length patience+1 sets the stop flag exactly at
epoch patience+1 (and not before); a strict improvement over the best so
far resets the counter to 0 and updates the minimum; a set stop flag is
never cleared by a later epoch and suppresses that network's optimizer
steps; and the epoch loop runs no further epoch once both flags are set. -/
theorem C4_pretrain_early_stopping :
    (∀ (p : ℕ) (losses : List ℚ), 1 ≤ p → losses.length = p + 1 →
      losses.Pairwise (· < ·) →
      (List.foldl (es_step p) es_init losses).stop = true ∧
      (List.foldl (es_step p) es_init (losses.take p)).stop = false) ∧
    (∀ (p : ℕ) (s : ESState) (l : ℚ), improves l s.best = true →
      es_step p s l = { best := some l, count := 0, stop := s.stop }) ∧
    (∀ (p : ℕ) (s : ESState) (l : ℚ), s.stop = true → (es_step p s l).stop = true) ∧
    (∀ (p nb : ℕ) (st : GanState) (gl dl : ℚ), st.g.stop = true →
      (gan_epoch p nb st gl dl).gSteps = st.gSteps) ∧
    (∀ (p nb : ℕ) (st : GanState) (gl dl : ℚ), st.d.stop = true →
      (gan_epoch p nb st gl dl).dSteps = st.dSteps) ∧
    (∀ (p nb : ℕ) (losses : ℕ → ℚ × ℚ) (n e : ℕ) (st : GanState),
      st.g.stop = true → st.d.stop = true → gan_loop p nb losses n e st = st) := by
  refine ⟨?_, ?_, ?_, ?_, ?_, ?_⟩
  · intro p losses hp hlen hpw
    cases losses with
    | nil => simp at hlen
    | cons l rest =>
      have hlr : rest.length = p := by simpa using hlen
      rw [List.pairwise_cons] at hpw
      have h1 : ∀ x ∈ rest, ¬ x < l := fun x hx => lt_asymm (hpw.1 x hx)
      have hinit : es_step p es_init l = ⟨some l, 0, false⟩ := by
        simp [es_step, improves, es_init]
      constructor
      · rw [List.foldl_cons, hinit, es_fold_nonimp p l rest 0 false h1]
        cases rest with
        | nil => simp at hlr; omega
        | cons y ys =>
          simp only [List.length_cons] at hlr
          have hle : p ≤ 0 + (ys.length + 1) := by omega
          simp [hle]
          omega
      · obtain ⟨q, rfl⟩ : ∃ q, p = q + 1 := ⟨p - 1, by omega⟩
        have htake : (l :: rest).take (q + 1) = l :: rest.take q := rfl
        have h1t : ∀ x ∈ rest.take q, ¬ x < l :=
          fun x hx => h1 x (List.take_subset q rest hx)
        rw [htake, List.foldl_cons, hinit,
          es_fold_nonimp (q + 1) l (rest.take q) 0 false h1t]
        have hnle : ¬ (q + 1 ≤ 0 + (rest.take q).length) := by
          rw [List.length_take]
          omega
        simp [hnle]
  · intro p s l h
    simp [es_step, h]
  · intro p s l h
    unfold es_step
    split <;> simp [h]
  · intro p nb st gl dl h
    simp [gan_epoch, h]
  · intro p nb st gl dl h
    simp [gan_epoch, h]
  · intro p nb losses n e st hg hd
    cases n with
    | zero => rfl
    | succ m => rw [gan_loop]; simp [hg, hd]

/-- Witness for C4: patience 2 and the strictly increasing loss sequence
1, 2, 3 — the flag is set after the third epoch and not after the second. -/
theorem C4_witness :
    (List.foldl (es_step 2) es_init [1, 2, 3]).stop = true ∧
      (List.foldl (es_step 2) es_init ([1, 2, 3].take 2)).stop = false :=
  C4_pretrain_early_stopping.1 2 [1, 2, 3] (by decide) (by decide) (by decide)
